import Mathlib

/-!
Shallow embedding of the `torn-key-pool` PostgreSQL storage backend
(`src/torn-key-pool/src/postgres.rs`): the domain-scoped, rate-limited key
allocator (`acquire_key`), key invalidation (`flag_key`), table creation
(`initialise`), and the serialization-conflict retry loop with randomized
backoff (`random_sleep`).

Modelling conventions:
- `i16`/`i32` integers are modelled as `Int`; the successful allocation path
  never overflows `int2` (a success requires `uses < limit ≤ 32767`), so no
  wraparound is modelled.
- `timestamptz` values are modelled as `Nat` seconds since the epoch;
  PostgreSQL's `extract(minute from t)` is the minute-of-hour field
  `t / 60 % 60` (time-zone offsets are whole minutes and shift both sides of
  the code's equality test identically, so modelling in UTC is faithful).
- The database table is a list of rows; `id` is a `serial primary key`
  (uniqueness is not assumed: the `update ... where api_keys.id = key.id`
  is modelled exactly as the SQL executes, over every row with that id).
- `sqlx` errors are a SQLSTATE-carrying database error or any other error.
-/

/-- `KeyDomain` from the crate root, as used by `postgres.rs`:
`Public`, `User(id)`, `Faction(id)` (the spec calls factions "groups"). -/
inductive KeyDomain where
  | Public : KeyDomain
  | User : Int → KeyDomain
  | Faction : Int → KeyDomain
deriving DecidableEq, Repr

/-- `PgKey`: one row of `api_keys` (`postgres.rs` lines 18–28). -/
structure PgKey where
  id : Int
  user_id : Int
  faction_id : Option Int
  key : String
  uses : Int
  user : Bool
  faction : Bool
  last_used : Nat
deriving DecidableEq, Repr

/-- An `sqlx::Error`: either a database error carrying a SQLSTATE code
(`error.as_database_error()` is `Some` and `pg_error.code()` is the code), or
any other error (I/O, decode, ...). -/
inductive SqlxError where
  | Database : String → SqlxError
  | Other : SqlxError
deriving DecidableEq, Repr

/-- `PgStorageError` (`postgres.rs` lines 9–16): a wrapped `sqlx` error or
`Unavailable(domain)`. -/
inductive PgStorageError where
  | Pg : SqlxError → PgStorageError
  | Unavailable : KeyDomain → PgStorageError
deriving DecidableEq, Repr

/-- PostgreSQL `extract(minute from t)`: the minute-of-hour field (0–59). -/
def minuteOfHour (t : Nat) : Nat :=
  t / 60 % 60

/-- The CTE's `case when extract(minute from last_used)=extract(minute from
now()) then uses else 0::smallint end` (`postgres.rs` lines 108–111): the
effective use count of a key at time `now`. -/
def effectiveUses (now : Nat) (k : PgKey) : Int :=
  if minuteOfHour k.last_used = minuteOfHour now then k.uses else 0

/-- The CTE's `order by last_used asc limit 1`: the first row (in table
order) whose `last_used` is minimal, if any. -/
def selectLru : List PgKey → Option PgKey
  | [] => none
  | k :: ks =>
    match selectLru ks with
    | none => some k
    | some m => if k.last_used ≤ m.last_used then some k else some m

/-- The domain predicate string built by `acquire_key` (`postgres.rs` lines
87–91): `""` for `Public`, and Rust
`format!("where and user_id={} and user", id)` (resp. `faction_id`/`faction`)
for the other domains — the id is interpolated into the string, and the
result begins `where and`, which is not well-formed SQL. -/
def domainPredicate : KeyDomain → String
  | KeyDomain.Public => ""
  | KeyDomain.User id => "where and user_id=" ++ toString id ++ " and user"
  | KeyDomain.Faction id => "where and faction_id=" ++ toString id ++ " and faction"

/-- The full query text executed by `acquire_key` (`postgres.rs` lines
101–134): the `formatdoc!` template with the domain predicate interpolated at
`from api_keys {}`. Only `$1` (the configured limit) is a bound parameter. -/
def acquireQueryText (d : KeyDomain) : String :=
  "with key as (\n    select \n        id,\n        user_id,\n        faction_id,\n        key,\n        case\n            when extract(minute from last_used)=extract(minute from now()) then uses\n            else 0::smallint\n        end as uses,\n        user,\n        faction,\n        last_used\n    from api_keys " ++ domainPredicate d ++ "\n    order by last_used asc limit 1 FOR UPDATE\n)\nupdate api_keys set\n    uses = key.uses + 1,\n    last_used = now()\nfrom key where \n    api_keys.id=key.id and key.uses < $1\nreturning\n    api_keys.id,\n    api_keys.user_id,\n    api_keys.faction_id,\n    api_keys.key,\n    api_keys.uses,\n    api_keys.user,\n    api_keys.faction,\n    api_keys.last_used\n"

/-- The parameters bound to the allocation query (`.bind(self.limit)`,
`postgres.rs` line 135): only the pool-wide limit, never a domain id. -/
def acquireBindParams (limit : Int) : List Int :=
  [limit]

/-- One conflict-free execution of the `acquire_key` transaction
(`postgres.rs` lines 86–145) against pool state `pool` at time `now`,
returning the result and the new table state.

For `Public` the predicate is empty and the query is well-formed: the CTE
picks the single row with the oldest `last_used` (ties by table order) with
its window-adjusted `uses`; the update fires only if that row's effective
`uses` is below the bound limit, setting `uses` to the effective value plus
one and `last_used` to `now()`, and `returning` the post-update row;
`fetch_optional` yields `none` when the update matched no row, which
`acquire_key` maps to `Unavailable(domain)`.

For `User(_)`/`Faction(_)` the generated predicate begins `where and ...`
(see `domainPredicate`), which PostgreSQL rejects at prepare time with
SQLSTATE 42601 (syntax error); sqlx surfaces it as a database error, the
retry loop does not retry it (42601 ≠ 40001, lines 150–158) and wraps it as
`PgStorageError::Pg`. -/
def acquire_key (limit : Int) (now : Nat) (pool : List PgKey) (d : KeyDomain) :
    Except PgStorageError PgKey × List PgKey :=
  match d with
  | KeyDomain.Public =>
    match selectLru pool with
    | none => (Except.error (PgStorageError.Unavailable KeyDomain.Public), pool)
    | some k =>
      let eff := effectiveUses now k
      if eff < limit then
        let charged : PgKey := { k with uses := eff + 1, last_used := now }
        (Except.ok charged, pool.map fun r => if r.id = k.id then charged else r)
      else (Except.error (PgStorageError.Unavailable KeyDomain.Public), pool)
  | KeyDomain.User _ =>
    (Except.error (PgStorageError.Pg (SqlxError.Database "42601")), pool)
  | KeyDomain.Faction _ =>
    (Except.error (PgStorageError.Pg (SqlxError.Database "42601")), pool)

/-- `flag_key` (`postgres.rs` lines 165–177): codes 2, 10 and 13 execute
`delete from api_keys where id=$1` and return `Ok(true)` — without checking
how many rows were affected — while every other code leaves storage untouched
and returns `Ok(false)`. -/
def flag_key (pool : List PgKey) (k : PgKey) (code : Nat) :
    Except PgStorageError Bool × List PgKey :=
  if code = 2 ∨ code = 10 ∨ code = 13 then
    (Except.ok true, pool.filter fun r => r.id ≠ k.id)
  else
    (Except.ok false, pool)

/-- The `api_keys` table together with the column defaults declared by
`initialise`'s `CREATE TABLE` (`uses int2 not null default 0`,
`last_used timestamptz not null default now()`). -/
structure ApiKeysTable where
  rows : List PgKey
  usesDefault : Int
  lastUsedDefault : Nat
deriving DecidableEq, Repr

/-- The database as seen by `initialise`: the `api_keys` table, present or
absent. -/
structure PgDatabase where
  apiKeys : Option ApiKeysTable
deriving DecidableEq, Repr

/-- `initialise` (`postgres.rs` lines 47–63): `CREATE TABLE IF NOT EXISTS
api_keys (...)` — a no-op when the table exists, otherwise it creates an
empty table whose `uses` column defaults to 0 and whose `last_used` column
defaults to the creation time `now()`. -/
def initialise (now : Nat) (db : PgDatabase) :
    Except PgStorageError Unit × PgDatabase :=
  match db.apiKeys with
  | some _ => (Except.ok (), db)
  | none =>
    (Except.ok (),
      { apiKeys := some { rows := [], usesDefault := 0, lastUsedDefault := now } })

/-- `random_sleep` (`postgres.rs` lines 66–71): the slept duration in
milliseconds is `thread_rng().gen_range(1..50)`, a uniform draw from the
half-open range `[1, 50)`; modelled as the uniform range map applied to a
raw random draw `r`. -/
def randomSleepMillis (r : Nat) : Nat :=
  1 + r % 49

/-- The outcome of one transaction attempt inside `acquire_key`'s `loop`
(`postgres.rs` lines 93–161): the transaction committed having found a key or
not (`Ok(key.ok_or(Unavailable(domain)))`), or the attempt failed with an
sqlx database error carrying a SQLSTATE code, or with a non-database error. -/
inductive AttemptResult where
  | committed : Option PgKey → AttemptResult
  | dbError : String → AttemptResult
  | otherError : AttemptResult
deriving DecidableEq, Repr

/-- The `match attempt` arms of the retry loop: a database error with
SQLSTATE 40001 (serialization failure) is the only retried outcome. -/
def isConflict : AttemptResult → Bool
  | AttemptResult.dbError c => c = "40001"
  | _ => false

/-- The retry loop of `acquire_key` (`postgres.rs` lines 93–162), driven by a
script of per-attempt outcomes: a committed attempt returns its result
(`key.ok_or(Unavailable(domain))`); a database error with code 40001 sleeps
and re-runs the next attempt from scratch; any other error returns
immediately. Yields `none` when the script runs out while still retrying,
and otherwise `some (sleeps, result)` with the number of backoff sleeps
performed. -/
def retryLoop (d : KeyDomain) : List AttemptResult → Option (Nat × Except PgStorageError PgKey)
  | [] => none
  | AttemptResult.committed found :: _ =>
    some (0, match found with
      | some k => Except.ok k
      | none => Except.error (PgStorageError.Unavailable d))
  | AttemptResult.dbError c :: rest =>
    if c = "40001" then
      (retryLoop d rest).map fun p => (p.1 + 1, p.2)
    else
      some (0, Except.error (PgStorageError.Pg (SqlxError.Database c)))
  | AttemptResult.otherError :: _ =>
    some (0, Except.error (PgStorageError.Pg SqlxError.Other))

/-- Spec-side eligibility predicate (spec §3, used to state claims against
the implementation): eligible for `Public` always, for `User u` iff owned by
`u` with the user flag set, for `Faction g` iff in faction `g` with the
faction flag set. -/
def specEligible (d : KeyDomain) (k : PgKey) : Bool :=
  match d with
  | KeyDomain.Public => true
  | KeyDomain.User u => k.user_id = u && k.user
  | KeyDomain.Faction g => k.faction_id = some g && k.faction

/-! ### Helper lemmas about the LRU selection -/

theorem selectLru_eq_none_iff (pool : List PgKey) :
    selectLru pool = none ↔ pool = [] := by
  cases pool with
  | nil => simp [selectLru]
  | cons a as =>
    simp only [selectLru]
    cases hs : selectLru as with
    | none => simp
    | some m => by_cases hle : a.last_used ≤ m.last_used <;> simp [hle]

theorem selectLru_mem : ∀ {pool : List PgKey} {k : PgKey},
    selectLru pool = some k → k ∈ pool := by
  intro pool
  induction pool with
  | nil => intro k h; simp [selectLru] at h
  | cons a as ih =>
    intro k h
    simp only [selectLru] at h
    cases hs : selectLru as with
    | none =>
      rw [hs] at h; simp at h; simp [h]
    | some m =>
      rw [hs] at h
      by_cases hle : a.last_used ≤ m.last_used
      · simp [hle] at h; simp [h]
      · simp [hle] at h
        exact List.mem_cons_of_mem a (ih (h ▸ hs))

theorem selectLru_min : ∀ {pool : List PgKey} {k : PgKey},
    selectLru pool = some k → ∀ j ∈ pool, k.last_used ≤ j.last_used := by
  intro pool
  induction pool with
  | nil => intro k h; simp [selectLru] at h
  | cons a as ih =>
    intro k h j hj
    simp only [selectLru] at h
    cases hs : selectLru as with
    | none =>
      rw [hs] at h
      simp at h
      have has : as = [] := (selectLru_eq_none_iff as).mp hs
      subst has
      rcases List.mem_cons.mp hj with hja | hja
      · subst h; subst hja; exact le_refl _
      · simp at hja
    | some m =>
      rw [hs] at h
      by_cases hle : a.last_used ≤ m.last_used
      · simp [hle] at h
        subst h
        rcases List.mem_cons.mp hj with hja | hja
        · subst hja; exact le_refl _
        · exact le_trans hle (ih hs j hja)
      · simp [hle] at h
        rcases List.mem_cons.mp hj with hja | hja
        · subst hja; exact le_of_lt (h ▸ lt_of_not_le hle)
        · exact ih (h ▸ hs) j hja

/-- C1 (amended). For the `Public` domain: a successful `acquire_key` returns
the key with the oldest `last_used` among ALL keys of the pool — not among
the under-limit ones — charged by one effective use, and it succeeds exactly
when that LRU key's effective uses is below the limit; it fails with
`Unavailable(Public)` iff the pool is empty or the selected LRU key's
effective uses is at/above the limit (even when another key is under the
limit). `User`/`Faction` domains never reach the selection logic: their
generated SQL is malformed and the call fails with a storage error. -/
theorem acquire_key_lru_characterization (limit : Int) (now : Nat) (pool : List PgKey) :
    (∀ k pool', acquire_key limit now pool KeyDomain.Public = (Except.ok k, pool') →
      ∃ k₀, k₀ ∈ pool ∧ (∀ j ∈ pool, k₀.last_used ≤ j.last_used) ∧
        effectiveUses now k₀ < limit ∧
        k = { k₀ with uses := effectiveUses now k₀ + 1, last_used := now })
    ∧ ((acquire_key limit now pool KeyDomain.Public).1 =
        Except.error (PgStorageError.Unavailable KeyDomain.Public) ↔
        pool = [] ∨ ∃ k₀, selectLru pool = some k₀ ∧ limit ≤ effectiveUses now k₀)
    ∧ (∀ u, (acquire_key limit now pool (KeyDomain.User u)).1 =
        Except.error (PgStorageError.Pg (SqlxError.Database "42601")))
    ∧ (∀ g, (acquire_key limit now pool (KeyDomain.Faction g)).1 =
        Except.error (PgStorageError.Pg (SqlxError.Database "42601"))) := by
  refine ⟨?_, ?_, fun _ => rfl, fun _ => rfl⟩
  · intro k pool' h
    simp only [acquire_key] at h
    cases hs : selectLru pool with
    | none => rw [hs] at h; simp at h
    | some k₀ =>
      rw [hs] at h
      by_cases hlt : effectiveUses now k₀ < limit
      · simp only [if_pos hlt, Prod.mk.injEq] at h
        refine ⟨k₀, selectLru_mem hs, selectLru_min hs, hlt, ?_⟩
        have := h.1
        injection this with e
        exact e.symm
      · simp [if_neg hlt] at h
  · constructor
    · intro hunav
      cases hs : selectLru pool with
      | none => exact Or.inl ((selectLru_eq_none_iff pool).mp hs)
      | some k₀ =>
        by_cases hlt : effectiveUses now k₀ < limit
        · exfalso
          have hok : (acquire_key limit now pool KeyDomain.Public).1 =
              Except.ok { k₀ with uses := effectiveUses now k₀ + 1, last_used := now } := by
            simp [acquire_key, hs, hlt]
          rw [hok] at hunav
          exact Except.noConfusion hunav
        · exact Or.inr ⟨k₀, rfl, le_of_not_lt hlt⟩
    · rintro (hnil | ⟨k₀, hs, hle⟩)
      · subst hnil; rfl
      · have hnlt : ¬ effectiveUses now k₀ < limit := not_lt.mpr hle
        simp [acquire_key, hs, hnlt]

/-- C1 counterexample. Pool of two public keys at `limit = 1`, `now = 59`:
key B (`uses = 0`, `last_used = 20`) is eligible and under the limit, yet
`acquire_key(Public)` fails with `Unavailable` because the CTE's
`order by last_used asc limit 1` picks key A (`last_used = 10`), which is at
the limit — refuting "fails with Unavailable if and only if no eligible
under-limit key exists". -/
theorem acquire_key_skips_eligible_key_counterexample :
    (specEligible KeyDomain.Public ⟨2, 2, none, "B", 0, true, true, 20⟩ = true ∧
     effectiveUses 59 ⟨2, 2, none, "B", 0, true, true, 20⟩ < 1) ∧
    (acquire_key 1 59
        [⟨1, 1, none, "A", 1, true, true, 10⟩, ⟨2, 2, none, "B", 0, true, true, 20⟩]
        KeyDomain.Public).1 =
      Except.error (PgStorageError.Unavailable KeyDomain.Public) := by
  exact ⟨⟨rfl, by decide⟩, rfl⟩

/-- C1 witness: the characterization applied to the one-key pool
`[⟨2, 2, none, "B", 0, true, true, 20⟩]` at `limit = 1`, `now = 59`, where
allocation succeeds. -/
theorem acquire_key_lru_characterization_witness :
    ∃ k₀, k₀ ∈ [(⟨2, 2, none, "B", 0, true, true, 20⟩ : PgKey)] ∧
      (∀ j ∈ [(⟨2, 2, none, "B", 0, true, true, 20⟩ : PgKey)], k₀.last_used ≤ j.last_used) ∧
      effectiveUses 59 k₀ < 1 ∧
      (⟨2, 2, none, "B", 1, true, true, 59⟩ : PgKey) =
        { k₀ with uses := effectiveUses 59 k₀ + 1, last_used := 59 } :=
  (acquire_key_lru_characterization 1 59 [⟨2, 2, none, "B", 0, true, true, 20⟩]).1
    ⟨2, 2, none, "B", 1, true, true, 59⟩ [⟨2, 2, none, "B", 1, true, true, 59⟩] rfl

/-- C2 (amended). The window check compares only the minute-of-hour field
(`extract(minute from ...)`), not the full minute-bucket. For the key picked
by the CTE: if its `last_used` has a different minute-of-hour than `now`, its
prior `uses` is treated as 0 for both the limit check and the persisted
increment — with stored `uses == limit` it is still allocatable and its
persisted `uses` becomes 1, not `limit + 1` — while if the minute-of-hour is
equal (including `last_used` a whole number of hours ago), the stored value
is used. -/
theorem window_reset_minute_of_hour (limit : Int) (now : Nat) (pool : List PgKey)
    (k : PgKey) (hs : selectLru pool = some k) :
    (minuteOfHour k.last_used ≠ minuteOfHour now → 0 < limit →
      acquire_key limit now pool KeyDomain.Public =
        (Except.ok { k with uses := 1, last_used := now },
         pool.map fun r =>
           if r.id = k.id then { k with uses := 1, last_used := now } else r)) ∧
    (minuteOfHour k.last_used = minuteOfHour now →
      (k.uses < limit →
        acquire_key limit now pool KeyDomain.Public =
          (Except.ok { k with uses := k.uses + 1, last_used := now },
           pool.map fun r =>
             if r.id = k.id then { k with uses := k.uses + 1, last_used := now } else r)) ∧
      (limit ≤ k.uses →
        (acquire_key limit now pool KeyDomain.Public).1 =
          Except.error (PgStorageError.Unavailable KeyDomain.Public))) := by
  refine ⟨?_, ?_⟩
  · intro hmin hlim
    have heff : effectiveUses now k = 0 := by simp [effectiveUses, hmin]
    simp [acquire_key, hs, heff, hlim]
  · intro hmin
    have heff : effectiveUses now k = k.uses := by simp [effectiveUses, hmin]
    constructor
    · intro hlt
      simp [acquire_key, hs, heff, hlt]
    · intro hle
      have hnlt : ¬ effectiveUses now k < limit := by rw [heff]; exact not_lt.mpr hle
      simp [acquire_key, hs, hnlt]

/-- C2 counterexample. Key with `last_used = 0` and stored `uses = 2` at
`limit = 2`, allocated at `now = 3600` (exactly one hour later): `now` falls
in a different minute-bucket (`0 / 60 ≠ 3600 / 60`), so the claim says the
prior uses are treated as 0 and the key is allocated with persisted
`uses = 1` — but the code compares `extract(minute ...)` (minute-of-hour,
`0 = 0`), keeps the stored `uses = 2`, and fails with `Unavailable`. -/
theorem window_reset_counterexample :
    ((0 : Nat) / 60 ≠ 3600 / 60) ∧
    (⟨1, 1, none, "K", 2, true, true, 0⟩ : PgKey).uses = 2 ∧
    (acquire_key 2 3600 [⟨1, 1, none, "K", 2, true, true, 0⟩] KeyDomain.Public).1 =
      Except.error (PgStorageError.Unavailable KeyDomain.Public) := by
  exact ⟨by decide, rfl, rfl⟩

/-- C2 witness: the amended window rule applied to a single-key pool with
stored `uses = 5 = limit` and `last_used` one minute before `now` — the key
is allocated and its persisted `uses` becomes 1. -/
theorem window_reset_minute_of_hour_witness :
    acquire_key 5 60 [⟨1, 1, none, "K", 5, true, true, 0⟩] KeyDomain.Public =
      (Except.ok ⟨1, 1, none, "K", 1, true, true, 60⟩,
       [⟨1, 1, none, "K", 1, true, true, 60⟩]) :=
  (window_reset_minute_of_hour 5 60 [⟨1, 1, none, "K", 5, true, true, 0⟩]
      ⟨1, 1, none, "K", 5, true, true, 0⟩ rfl).1 (by decide) (by decide)

/-- C3: the code evaluated at the failing input. For `User(7)` the code
builds the predicate `where and user_id=7 and user` — `WHERE` directly
followed by `AND` is not valid SQL, so the prepared statement is rejected
with SQLSTATE 42601 and `acquire_key` fails with a storage error even though
the pool holds a key that is spec-eligible for `User(7)` (owner 7, user flag
set, zero uses); likewise for `Faction(_)`. The spec's eligibility rule is
the evident intent (the stray `and` after `where` is a slip that makes every
`User`/`Faction` allocation fail). -/
theorem user_domain_query_malformed :
    domainPredicate (KeyDomain.User 7) = "where and user_id=7 and user" ∧
    domainPredicate (KeyDomain.Faction 3) = "where and faction_id=3 and faction" ∧
    specEligible (KeyDomain.User 7) ⟨1, 7, none, "U", 0, true, true, 0⟩ = true ∧
    (acquire_key 50 0 [⟨1, 7, none, "U", 0, true, true, 0⟩] (KeyDomain.User 7)).1 =
      Except.error (PgStorageError.Pg (SqlxError.Database "42601")) := by
  exact ⟨rfl, rfl, rfl, rfl⟩

/-- C4: the retry driver sleeps a uniformly drawn 1–49 ms duration and
re-runs the whole attempt on a serialization-conflict abort (SQLSTATE 40001),
with no retry ceiling; a committed attempt's result (key or `Unavailable`)
and every non-conflict error return immediately, and the loop never returns
while only conflicts have occurred. -/
theorem retry_policy_conflicts_only :
    (∀ r : Nat, 1 ≤ randomSleepMillis r ∧ randomSleepMillis r < 50) ∧
    (∀ (d : KeyDomain) (n : Nat) (found : Option PgKey),
      retryLoop d (List.replicate n (AttemptResult.dbError "40001") ++
          [AttemptResult.committed found]) =
        some (n, match found with
          | some k => Except.ok k
          | none => Except.error (PgStorageError.Unavailable d))) ∧
    (∀ (d : KeyDomain) (c : String) (rest : List AttemptResult), c ≠ "40001" →
      retryLoop d (AttemptResult.dbError c :: rest) =
        some (0, Except.error (PgStorageError.Pg (SqlxError.Database c)))) ∧
    (∀ (d : KeyDomain) (rest : List AttemptResult),
      retryLoop d (AttemptResult.otherError :: rest) =
        some (0, Except.error (PgStorageError.Pg SqlxError.Other))) ∧
    (∀ (d : KeyDomain) (n : Nat),
      retryLoop d (List.replicate n (AttemptResult.dbError "40001")) = none) := by
  refine ⟨?_, ?_, ?_, ?_, ?_⟩
  · intro r
    unfold randomSleepMillis
    omega
  · intro d n found
    induction n with
    | zero => simp [retryLoop]
    | succ n ih => simp [List.replicate_succ, retryLoop, ih]
  · intro d c rest hc
    simp [retryLoop, hc]
  · intro d rest
    rfl
  · intro d n
    induction n with
    | zero => rfl
    | succ n ih => simp [List.replicate_succ, retryLoop, ih]

/-- C4 witness: three conflicts followed by a committed empty attempt yield
`Unavailable` after exactly three backoff sleeps, and a non-conflict database
error (SQLSTATE 42601) returns immediately with zero sleeps. -/
theorem retry_policy_conflicts_only_witness :
    retryLoop KeyDomain.Public
        (List.replicate 3 (AttemptResult.dbError "40001") ++
          [AttemptResult.committed none]) =
      some (3, Except.error (PgStorageError.Unavailable KeyDomain.Public)) ∧
    retryLoop KeyDomain.Public [AttemptResult.dbError "42601"] =
      some (0, Except.error (PgStorageError.Pg (SqlxError.Database "42601"))) :=
  ⟨retry_policy_conflicts_only.2.1 KeyDomain.Public 3 none,
   retry_policy_conflicts_only.2.2.1 KeyDomain.Public "42601" [] (by decide)⟩

/-- C5 counterexample: with the key's row already absent from storage and the
deletion-triggering code 2, `flag_key` changes nothing yet returns `true` —
refuting "its boolean result reports whether a deletion occurred". -/
theorem flag_key_true_without_deletion_counterexample :
    flag_key [] ⟨1, 1, none, "K", 0, true, true, 0⟩ 2 = (Except.ok true, []) :=
  rfl

/-- C5 (amended): `flag_key` executes the delete of the key's row and returns
`true` exactly when the code is in the fixed set {2, 10, 13}; for every other
code it makes no storage change and returns `false`. The boolean reports
whether the code is deletion-triggering (a delete statement was executed),
not whether a row was actually removed. -/
theorem flag_key_code_set_behaviour (pool : List PgKey) (k : PgKey) (code : Nat) :
    (code = 2 ∨ code = 10 ∨ code = 13 →
      flag_key pool k code = (Except.ok true, pool.filter fun r => r.id ≠ k.id) ∧
      ∀ r ∈ (flag_key pool k code).2, r.id ≠ k.id) ∧
    (¬(code = 2 ∨ code = 10 ∨ code = 13) →
      flag_key pool k code = (Except.ok false, pool)) := by
  constructor
  · intro h
    refine ⟨by simp [flag_key, h], ?_⟩
    intro r hr
    simp only [flag_key, if_pos h] at hr
    exact of_decide_eq_true (List.mem_filter.mp hr).2
  · intro h
    simp [flag_key, h]

/-- C5 witness: deleting with code 2 removes the present row and returns
`true`; code 5 is outside the set, leaves the row, and returns `false`. -/
theorem flag_key_code_set_behaviour_witness :
    flag_key [⟨1, 1, none, "K", 0, true, true, 0⟩] ⟨1, 1, none, "K", 0, true, true, 0⟩ 2 =
      (Except.ok true, []) ∧
    flag_key [⟨1, 1, none, "K", 0, true, true, 0⟩] ⟨1, 1, none, "K", 0, true, true, 0⟩ 5 =
      (Except.ok false, [⟨1, 1, none, "K", 0, true, true, 0⟩]) :=
  ⟨((flag_key_code_set_behaviour [⟨1, 1, none, "K", 0, true, true, 0⟩]
      ⟨1, 1, none, "K", 0, true, true, 0⟩ 2).1 (Or.inl rfl)).1,
   (flag_key_code_set_behaviour [⟨1, 1, none, "K", 0, true, true, 0⟩]
      ⟨1, 1, none, "K", 0, true, true, 0⟩ 5).2 (by decide)⟩

/-- C6 counterexample: two `flag_key` calls with code 2 on the same key — the
first deletes the row; the second is a storage no-op but returns `true`,
refuting "the second call returns false because no deletion occurred". -/
theorem flag_key_second_call_counterexample :
    (flag_key [⟨1, 1, none, "A", 0, true, true, 0⟩]
        ⟨1, 1, none, "A", 0, true, true, 0⟩ 2).2 = [] ∧
    flag_key (flag_key [⟨1, 1, none, "A", 0, true, true, 0⟩]
          ⟨1, 1, none, "A", 0, true, true, 0⟩ 2).2
        ⟨1, 1, none, "A", 0, true, true, 0⟩ 2 =
      (Except.ok true, []) :=
  ⟨rfl, rfl⟩

/-- C6 (amended): invalidation is idempotent on storage — calling `flag_key`
twice with a deletion-triggering code deletes the key once and the second
call succeeds as a storage no-op, not an error — but the second call also
returns `true`, because the result reports the code class rather than
whether a row was removed. -/
theorem flag_key_idempotent_storage (pool : List PgKey) (k : PgKey) (code : Nat)
    (hc : code = 2 ∨ code = 10 ∨ code = 13) :
    (flag_key (flag_key pool k code).2 k code).2 = (flag_key pool k code).2 ∧
    (flag_key (flag_key pool k code).2 k code).1 = Except.ok true := by
  constructor
  · simp [flag_key, hc, List.filter_filter]
  · simp [flag_key, hc]

/-- C6 witness: the idempotence applied to a one-key pool with code 2. -/
theorem flag_key_idempotent_storage_witness :
    (flag_key (flag_key [⟨1, 1, none, "B", 0, true, true, 0⟩]
        ⟨1, 1, none, "B", 0, true, true, 0⟩ 2).2
        ⟨1, 1, none, "B", 0, true, true, 0⟩ 2).2 =
      (flag_key [⟨1, 1, none, "B", 0, true, true, 0⟩]
        ⟨1, 1, none, "B", 0, true, true, 0⟩ 2).2 ∧
    (flag_key (flag_key [⟨1, 1, none, "B", 0, true, true, 0⟩]
        ⟨1, 1, none, "B", 0, true, true, 0⟩ 2).2
        ⟨1, 1, none, "B", 0, true, true, 0⟩ 2).1 = Except.ok true :=
  flag_key_idempotent_storage [⟨1, 1, none, "B", 0, true, true, 0⟩]
    ⟨1, 1, none, "B", 0, true, true, 0⟩ 2 (Or.inl rfl)

set_option maxRecDepth 4000 in
/-- C7 counterexample: two allocations for `User(1)` and `User(2)` execute
different query texts — the caller-supplied id is interpolated into the SQL
string, not bound as a parameter — refuting "two runs with different ids
execute the same query text". -/
theorem query_text_depends_on_id_counterexample :
    acquireQueryText (KeyDomain.User 1) ≠ acquireQueryText (KeyDomain.User 2) := by
  decide

set_option maxRecDepth 4000 in
/-- C7 (amended): the domain id is string-interpolated into the allocation
query: the query text for `User(i)` (resp. `Faction(i)`) is a fixed prefix,
then the decimal rendering of `i`, then a fixed suffix — so texts differ
between ids (e.g. 1 vs 2 for both domains) — while the only bound parameter
of the query is the pool-wide limit, never a domain identifier. -/
theorem query_interpolation_characterization :
    (∃ pre post : String, ∀ i : Int,
      acquireQueryText (KeyDomain.User i) = pre ++ (toString i ++ post)) ∧
    (∃ pre post : String, ∀ i : Int,
      acquireQueryText (KeyDomain.Faction i) = pre ++ (toString i ++ post)) ∧
    acquireQueryText (KeyDomain.User 1) ≠ acquireQueryText (KeyDomain.User 2) ∧
    acquireQueryText (KeyDomain.Faction 1) ≠ acquireQueryText (KeyDomain.Faction 2) ∧
    (∀ limit : Int, acquireBindParams limit = [limit]) := by
  refine ⟨?_, ?_, by decide, by decide, fun _ => rfl⟩
  · refine ⟨"with key as (\n    select \n        id,\n        user_id,\n        faction_id,\n        key,\n        case\n            when extract(minute from last_used)=extract(minute from now()) then uses\n            else 0::smallint\n        end as uses,\n        user,\n        faction,\n        last_used\n    from api_keys " ++ "where and user_id=",
      " and user" ++ "\n    order by last_used asc limit 1 FOR UPDATE\n)\nupdate api_keys set\n    uses = key.uses + 1,\n    last_used = now()\nfrom key where \n    api_keys.id=key.id and key.uses < $1\nreturning\n    api_keys.id,\n    api_keys.user_id,\n    api_keys.faction_id,\n    api_keys.key,\n    api_keys.uses,\n    api_keys.user,\n    api_keys.faction,\n    api_keys.last_used\n", fun i => ?_⟩
    simp only [acquireQueryText, domainPredicate, String.append_assoc]
  · refine ⟨"with key as (\n    select \n        id,\n        user_id,\n        faction_id,\n        key,\n        case\n            when extract(minute from last_used)=extract(minute from now()) then uses\n            else 0::smallint\n        end as uses,\n        user,\n        faction,\n        last_used\n    from api_keys " ++ "where and faction_id=",
      " and faction" ++ "\n    order by last_used asc limit 1 FOR UPDATE\n)\nupdate api_keys set\n    uses = key.uses + 1,\n    last_used = now()\nfrom key where \n    api_keys.id=key.id and key.uses < $1\nreturning\n    api_keys.id,\n    api_keys.user_id,\n    api_keys.faction_id,\n    api_keys.key,\n    api_keys.uses,\n    api_keys.user,\n    api_keys.faction,\n    api_keys.last_used\n", fun i => ?_⟩
    simp only [acquireQueryText, domainPredicate, String.append_assoc]

/-- C9: whenever the pool's stored use counters are non-negative (as the
schema guarantees: `uses` defaults to 0 and only ever receives
`effective + 1`), every key snapshot returned by a successful `acquire_key`
has `uses` at least 1 and at most the configured limit: the update fires only
when the effective uses is strictly below the limit and persists the
effective value plus one, and the returned row is the post-update row. -/
theorem acquired_key_uses_bounds (limit : Int) (now : Nat) (pool : List PgKey)
    (d : KeyDomain) (k : PgKey) (pool' : List PgKey)
    (hnn : ∀ j ∈ pool, 0 ≤ j.uses)
    (h : acquire_key limit now pool d = (Except.ok k, pool')) :
    1 ≤ k.uses ∧ k.uses ≤ limit := by
  cases d with
  | Public =>
    simp only [acquire_key] at h
    cases hs : selectLru pool with
    | none => rw [hs] at h; simp at h
    | some k₀ =>
      rw [hs] at h
      by_cases hlt : effectiveUses now k₀ < limit
      · simp only [if_pos hlt, Prod.mk.injEq] at h
        have hk := h.1
        injection hk with e
        subst e
        have heff : 0 ≤ effectiveUses now k₀ := by
          unfold effectiveUses
          split
          · exact hnn k₀ (selectLru_mem hs)
          · exact le_refl 0
        simp only [PgKey.mk.injEq]
        constructor
        · omega
        · omega
      · simp [if_neg hlt] at h
  | User u => simp [acquire_key] at h
  | Faction g => simp [acquire_key] at h

/-- C9 witness: a one-key pool (`uses = 0`, limit 1) in the current window
allocates a snapshot with `uses = 1`, which lies in `[1, limit]`. -/
theorem acquired_key_uses_bounds_witness :
    1 ≤ (⟨1, 1, none, "W", 1, true, true, 59⟩ : PgKey).uses ∧
    (⟨1, 1, none, "W", 1, true, true, 59⟩ : PgKey).uses ≤ 1 :=
  acquired_key_uses_bounds 1 59 [⟨1, 1, none, "W", 0, true, true, 7⟩] KeyDomain.Public
    ⟨1, 1, none, "W", 1, true, true, 59⟩ [⟨1, 1, none, "W", 1, true, true, 59⟩]
    (by intro j hj; simp at hj; subst hj; decide) rfl

/-- C10: `initialise` is idempotent — when the `api_keys` table already
exists it succeeds and leaves the table and its rows unchanged; when the
table is absent it creates it empty with `uses` defaulting to 0 and
`last_used` defaulting to the creation time; and a second `initialise` after
any first one is always a successful no-op. -/
theorem initialise_idempotent (now now' : Nat) (db : PgDatabase) :
    (∀ t, db.apiKeys = some t → initialise now db = (Except.ok (), db)) ∧
    (db.apiKeys = none →
      initialise now db =
        (Except.ok (), ⟨some ⟨[], 0, now⟩⟩)) ∧
    initialise now' (initialise now db).2 = (Except.ok (), (initialise now db).2) := by
  refine ⟨?_, ?_, ?_⟩
  · intro t ht
    simp [initialise, ht]
  · intro h
    simp [initialise, h]
  · cases hdb : db.apiKeys with
    | some t => simp [initialise, hdb]
    | none => simp [initialise, hdb]

/-- C10 witness: re-running `initialise` on a database whose `api_keys` table
already holds a row succeeds and changes nothing. -/
theorem initialise_idempotent_witness :
    initialise 99 ⟨some ⟨[⟨1, 1, none, "T", 0, true, true, 0⟩], 0, 5⟩⟩ =
      (Except.ok (), ⟨some ⟨[⟨1, 1, none, "T", 0, true, true, 0⟩], 0, 5⟩⟩) :=
  (initialise_idempotent 99 0 ⟨some ⟨[⟨1, 1, none, "T", 0, true, true, 0⟩], 0, 5⟩⟩).1
    ⟨[⟨1, 1, none, "T", 0, true, true, 0⟩], 0, 5⟩ rfl
